import Mathlib

/-!
Shallow embedding of `drivers/staging/android/lowmemorykiller.c` (the Android
low-memory-killer shrinker of this kernel tree) together with proofs about its
victim-selection engine.

Modelling conventions:
* C `short`/`int` values (oom scores, page counts) are `Int`; jiffies are `Nat`
  (`time_before_eq(jiffies, t)` becomes `jiffies ≤ t`, abstracting from the
  wrap-around-safe comparison macros).
* The global module state touched by `lowmem_scan` is the `GState` record; one
  invocation is the pure function `lowmem_scan : GState → ScanInput → ScanResult`.
* Tasks are immutable records; fields `oom_score_adj`/`rss`/`memdie` hold the
  values read during the candidate scan, and `adjNow`/`rssNow`/`memdieNow` the
  values re-read by the termination loop (this captures staleness between scan
  and kill without modelling the concurrent writers).
* `kmalloc` inside `list_insert` is modelled as always succeeding (an
  allocation failure merely skips one insertion in the C code).
* Marking a victim dying (`set_tsk_thread_flag(selected, TIF_MEMDIE)`) and
  signalling it (`send_sig(SIGKILL, ...)`) are represented by appending the
  task to the `killed` list of the result: exactly the tasks on that list are
  marked and signalled by the C code.
* Purely diagnostic globals (printk buffers, dump-work triggers, `dumppid`)
  are not modelled; the five scan/kill/escape counters are.
-/

namespace Lmk

/-- OOM_SCORE_ADJ_MAX from include/uapi/linux/oom.h. -/
def OOM_SCORE_ADJ_MAX : Int := 1000

/-- `adj_max_shift` (lowmemorykiller.c line 112): cap imposed by adaptive LMK. -/
def adj_max_shift : Int := 353

/-- PAGE_SIZE in bytes on this target (arm64/arm, 4 KiB pages). -/
def PAGE_SIZE : Int := 4096

/-- Jiffies per second (CONFIG_HZ); the concrete value is irrelevant to every
claim, which only ever uses `HZ` symbolically. -/
def HZ : Nat := 100

/-- Return codes of `adjust_minadj` (enum at lines 133-137). -/
def VMPRESSURE_NO_ADJUST : Int := 0

def VMPRESSURE_ADJUST_ENCROACH : Int := 1

def VMPRESSURE_ADJUST_NORMAL : Int := 2

/-- Result of `adjust_minadj`: the C function returns `ret`, updates
`*min_score_adj` in place and writes the `shift_adj` atomic. -/
structure AdjustResult where
  ret : Int
  minAdj : Int
  shift : Bool
deriving DecidableEq

/-- `adjust_minadj` (lines 139-157).  When adaptive LMK is disabled it returns
immediately (leaving `shift_adj` untouched); otherwise it clamps a score above
`adj_max_shift` down to it whenever `shift_adj` is armed, and unconditionally
clears `shift_adj`. -/
def adjust_minadj (enable_adaptive_lmk : Bool) (shift_adj : Bool)
    (min_score_adj : Int) : AdjustResult :=
  if !enable_adaptive_lmk then
    { ret := 0, minAdj := min_score_adj, shift := shift_adj }
  else if shift_adj ∧ adj_max_shift < min_score_adj then
    { ret := if min_score_adj = OOM_SCORE_ADJ_MAX + 1 then
        VMPRESSURE_ADJUST_ENCROACH else VMPRESSURE_ADJUST_NORMAL,
      minAdj := adj_max_shift, shift := false }
  else
    { ret := VMPRESSURE_NO_ADJUST, minAdj := min_score_adj, shift := false }

/-- `lmk_vmpressure_notifier` (lines 159-212).  Arguments mirror the globals it
reads; result is `(return value, new shift_adj)`.  `adjL`/`minfreeL` model the
occupied prefixes of the `lowmem_adj`/`lowmem_minfree` module-parameter arrays
(their lengths are the `lowmem_adj_size`/`lowmem_minfree_size` globals, both at
most ARRAY_SIZE = 6, so the ARRAY_SIZE clamp of lines 164/182-185 reduces to
the minimum of the two lengths). -/
def lmk_vmpressure_notifier (enable_adaptive_lmk : Bool) (pressure : Nat)
    (adjL minfreeL : List Int) (vmpressure_file_min : Int)
    (nr_file_pages nr_zcache_pages nr_shmem nr_swapcache_pages
     nr_free_pages : Int) (shift_adj : Bool) : Int × Bool :=
  if !enable_adaptive_lmk then (0, shift_adj)
  else if 98 ≤ pressure then
    let array_size := min adjL.length minfreeL.length
    let other_file := nr_file_pages + nr_zcache_pages - nr_shmem
      - nr_swapcache_pages
    let other_free := nr_free_pages
    if other_free < minfreeL.getD (array_size - 1) 0 ∧
        other_file < vmpressure_file_min then
      (0, true)
    else (0, shift_adj)
  else if shift_adj then (0, false)
  else (0, shift_adj)

/-- One process as seen by `lowmem_scan`.  The first group of fields is what
the candidate-scan loop reads, the `…Now` fields are the re-reads performed by
the termination loop (lines 742-760). -/
structure Task where
  pid : Int
  comm : List Char
  isKthread : Bool
  mmReleased : Bool
  memdie : Bool
  hasMm : Bool
  oom_score_adj : Int
  rss : Int
  adjNow : Int
  memdieNow : Bool
  rssNow : Int
deriving DecidableEq

/-- Is `needle` a prefix of `hay` (character-exact, as C `strncmp`-style
comparison inside `strstr`). -/
def isPrefixB : List Char → List Char → Bool
  | [], _ => true
  | _ :: _, [] => false
  | a :: as, b :: bs => a == b && isPrefixB as bs

/-- C `strstr(hay, needle) != NULL`: does `needle` occur in `hay`. -/
def strstrB : List Char → List Char → Bool
  | [], needle => isPrefixB needle []
  | h :: t, needle => isPrefixB needle (h :: t) || strstrB t needle

def pat_launcher : List Char := "launcher".data

def pat_launcher3 : List Char := "auncher3:commo".data

def pat_acore : List Char := "process.acore".data

def pat_gapps : List Char := "process.gapps".data

def pat_media : List Char := "process.media".data

/-- Threshold resolution loop (lines 504-510): first ascending entry of the
(adj, minfree) table whose minfree exceeds both estimator outputs; the sentinel
`OOM_SCORE_ADJ_MAX + 1` when no entry matches. -/
def resolveMinScore : List (Int × Int) → Int → Int → Int
  | [], _, _ => OOM_SCORE_ADJ_MAX + 1
  | e :: rest, other_free, other_file =>
    if other_free < e.2 ∧ other_file < e.2 then e.1
    else resolveMinScore rest other_free other_file

/-- Break condition of the ranking search loop (lines 679-696): scanning the
window head→tail, stop at the first kept entry `e` that is at least as good a
victim as the incoming candidate.  Non-adaptive order is (score, size)
lexicographic; adaptive order is size only. -/
def breaksAt (bIsAdapterLMK : Bool) (oom_score_adj tasksize : Int)
    (e : Task) : Bool :=
  if bIsAdapterLMK then tasksize ≤ e.rss
  else if e.oom_score_adj < oom_score_adj then false
  else if oom_score_adj < e.oom_score_adj then true
  else tasksize ≤ e.rss

/-- Insertion into the strict interior or at the tail of the window (the
`EListAllocate_Body`/`EListAllocate_Tail` cases of lines 699-714): place the
candidate immediately before the first entry that breaks the search, or append
it when no entry does. -/
def insertInner (bIsAdapterLMK : Bool) (c : Task) : List Task → List Task
  | [] => [c]
  | e :: rest =>
    if breaksAt bIsAdapterLMK c.oom_score_adj c.rss e then c :: e :: rest
    else e :: insertInner bIsAdapterLMK c rest

/-- One full window insertion (lines 655-728).  The window list is kept in the
same orientation as the kernel list: head = worst victim, tail = best victim.
A candidate breaking at the head is only inserted while the window is not full
(`EListAllocate_Head`, lines 704-709); after any insertion the worst (head)
entry is evicted when the window exceeds `nTaskMax` (lines 722-728). -/
def windowInsert (bIsAdapterLMK : Bool) (nTaskMax : Nat) (c : Task)
    (w : List Task) : List Task :=
  match w with
  | [] => [c]
  | e :: rest =>
    let w2 :=
      if breaksAt bIsAdapterLMK c.oom_score_adj c.rss e then
        if (e :: rest).length < nTaskMax then c :: e :: rest else e :: rest
      else e :: insertInner bIsAdapterLMK c rest
    if nTaskMax < w2.length then w2.tail else w2

/-- One iteration of the candidate-scan loop (lines 571-730): the filter
chain (kernel thread, released mm, already dying, no mm, name exemptions under
moderate pressure, score below the resolved minimum, zero size) followed by
window insertion. -/
def scanStep (bIsAdapterLMK : Bool) (min_score_adj : Int) (nTaskMax : Nat)
    (w : List Task) (tsk : Task) : List Task :=
  if tsk.isKthread then w
  else if tsk.mmReleased then w
  else if tsk.memdie then w
  else if !tsk.hasMm then w
  else if strstrB tsk.comm pat_launcher ∧ 200 < min_score_adj then w
  else if strstrB tsk.comm pat_launcher3 ∧ 200 < min_score_adj then w
  else if strstrB tsk.comm pat_acore ∧ 200 < min_score_adj then w
  else if strstrB tsk.comm pat_gapps ∧ 200 < min_score_adj then w
  else if strstrB tsk.comm pat_media ∧ 200 < min_score_adj then w
  else if tsk.oom_score_adj < min_score_adj then w
  else if tsk.rss ≤ 0 then w
  else windowInsert bIsAdapterLMK nTaskMax tsk w

/-- The complete candidate scan: fold the per-task step over the live process
list, starting from the empty window. -/
def rankCandidates (bIsAdapterLMK : Bool) (min_score_adj : Int)
    (nTaskMax : Nat) (tasks : List Task) : List Task :=
  tasks.foldl (scanStep bIsAdapterLMK min_score_adj nTaskMax) []

/-- `nTaskMax` sizing (lines 557-568): adaptive invocations kill at most 2,
otherwise a step function of the resolved score. -/
def nTaskMaxOf (bIsAdapterLMK : Bool) (min_score_adj : Int) : Nat :=
  if bIsAdapterLMK then 2
  else if 1000 ≤ min_score_adj then 1
  else if 529 ≤ min_score_adj then 2
  else if 300 ≤ min_score_adj then 4
  else if 117 ≤ min_score_adj then 5
  else 6

/-- State threaded through the termination loop: the reclaimed-page
accumulator `rem`, the `killNothing`/cooldown globals it writes, and the ghost
list of tasks marked dying and signalled. -/
structure KillState where
  rem : Int
  killNothing : Bool
  killNothing_adj : Int
  justkilled_timeout : Nat
  justkilled_adj : Int
  kill_count : Nat
  killed : List Task
deriving DecidableEq

/-- One iteration of the termination loop (lines 733-816), walking the window
from best victim (list tail) backwards: re-check TIF_MEMDIE, re-read the score
and skip if it fell below the resolved minimum, skip the calling process, skip
adaptive victims under the 80 MB floor; otherwise mark dying, signal, account
the resident size, and refresh the post-kill cooldown. -/
def killStep (currentPid : Int) (now : Nat) (bIsAdapterLMK : Bool)
    (min_score_adj : Int) (nTaskMax : Nat) (st : KillState) (t : Task) :
    KillState :=
  if t.memdieNow then st
  else if t.adjNow < min_score_adj then st
  else if t.pid = currentPid then st
  else if bIsAdapterLMK ∧ t.rssNow * (PAGE_SIZE / 1024) < 80 * 1024 then st
  else
    { rem := st.rem + t.rssNow,
      killNothing := false,
      killNothing_adj := 2000,
      justkilled_timeout := now + HZ / nTaskMax,
      justkilled_adj := min_score_adj,
      kill_count := st.kill_count + 1,
      killed := st.killed ++ [t] }

/-- The module-global state read and written by one `lowmem_scan` invocation:
the threshold tables, the adaptive flag pair, the two cooldown gates, and the
diagnostic counters (lines 64-68, 111-118, 443-447). -/
structure GState where
  lowmem_adj : List Int
  lowmem_minfree : List Int
  enable_adaptive_lmk : Bool
  shift_adj : Bool
  lowmem_justkilled_timeout : Nat
  justkilled_adj : Int
  lowmem_killNothing_timeout : Nat
  killNothing_adj : Int
  killNothing : Bool
  lowmem_scan_count : Nat
  lowmem_escape1_count : Nat
  lowmem_escape2_count : Nat
  lowmem_escape3_count : Nat
  lowmem_kill_count : Nat
deriving DecidableEq

/-- Per-invocation inputs: whether `mutex_lock_interruptible` was interrupted,
the estimator outputs (`other_free`/`other_file` after `tune_lmk_param`, which
the spec treats as an external collaborator), the live process list, the
calling process id, and the current jiffies. -/
structure ScanInput where
  lockInterrupted : Bool
  otherFree : Int
  otherFile : Int
  tasks : List Task
  currentPid : Int
  jiffiesNow : Nat
deriving DecidableEq

/-- Result of one invocation: the new global state, the return value `rem`,
the ghost list of killed tasks, and two trace bits: whether `scan_mutex` was
acquired and whether the process walk (`for_each_process`) ran. -/
structure ScanResult where
  state : GState
  rem : Int
  killed : List Task
  tookLock : Bool
  walked : Bool
deriving DecidableEq

/-- The (adj, minfree) threshold table actually scanned: both module-parameter
arrays clamped to the shorter of the two occupied lengths (lines 500-503). -/
def thresholdTable (g : GState) : List (Int × Int) :=
  g.lowmem_adj.zip g.lowmem_minfree

/-- The pre-adaptive resolved minimum score of an invocation. -/
def preAdaptiveMin (g : GState) (inp : ScanInput) : Int :=
  resolveMinScore (thresholdTable g) inp.otherFree inp.otherFile

/-- The resolved minimum score after the adaptive clamp (line 513). -/
def resolvedMin (g : GState) (inp : ScanInput) : Int :=
  (adjust_minadj g.enable_adaptive_lmk g.shift_adj (preAdaptiveMin g inp)).minAdj

/-- `bIsAdapterLMK` (lines 512-516): the invocation is adaptive exactly when
the clamp changed the score. -/
def isAdaptiveInv (g : GState) (inp : ScanInput) : Bool :=
  preAdaptiveMin g inp ≠ resolvedMin g inp

/-- Globals updated between taking the lock and the first gate: the scan
counter (line 483) and the one-shot `shift_adj` consumed by `adjust_minadj`. -/
def bumpScan (g : GState) (inp : ScanInput) : GState :=
  { g with
    lowmem_scan_count := g.lowmem_scan_count + 1,
    shift_adj := (adjust_minadj g.enable_adaptive_lmk g.shift_adj
      (preAdaptiveMin g inp)).shift }

/-- Initial termination-loop state (`rem = 0`, `killNothing = 1` from line 731,
remaining fields holding the current globals). -/
def killInit (g : GState) : KillState :=
  { rem := 0,
    killNothing := true,
    killNothing_adj := g.killNothing_adj,
    justkilled_timeout := g.lowmem_justkilled_timeout,
    justkilled_adj := g.justkilled_adj,
    kill_count := g.lowmem_kill_count,
    killed := [] }

/-- The termination loop (lines 733-816): `list_for_each_entry_safe_reverse`
walks the window from tail (best victim) to head. -/
def runKill (currentPid : Int) (now : Nat) (bIsAdapterLMK : Bool)
    (min_score_adj : Int) (nTaskMax : Nat) (st : KillState)
    (window : List Task) : KillState :=
  window.reverse.foldl (killStep currentPid now bIsAdapterLMK min_score_adj
    nTaskMax) st

/-- Fold the termination-loop state back into the globals, then apply the
kill-nothing cooldown update of lines 850-855. -/
def applyKill (g : GState) (now : Nat) (min_score_adj : Int)
    (ks : KillState) : GState :=
  let g2 : GState := { g with
    killNothing := ks.killNothing,
    killNothing_adj := ks.killNothing_adj,
    lowmem_justkilled_timeout := ks.justkilled_timeout,
    justkilled_adj := ks.justkilled_adj,
    lowmem_kill_count := ks.kill_count }
  if ks.killNothing then
    { g2 with
      killNothing_adj := min_score_adj,
      lowmem_killNothing_timeout := now + 2 * HZ }
  else g2

/-- The candidate window produced by an invocation that reaches the scan. -/
def windowOf (g : GState) (inp : ScanInput) : List Task :=
  rankCandidates (isAdaptiveInv g inp) (resolvedMin g inp)
    (nTaskMaxOf (isAdaptiveInv g inp) (resolvedMin g inp)) inp.tasks

/-- Scan, rank and terminate (everything past the three early-exit gates). -/
def proceedPhase (g1 : GState) (inp : ScanInput) (bIsAdapterLMK : Bool)
    (min_score_adj : Int) : ScanResult :=
  let nMax := nTaskMaxOf bIsAdapterLMK min_score_adj
  let window := rankCandidates bIsAdapterLMK min_score_adj nMax inp.tasks
  let ks := runKill inp.currentPid inp.jiffiesNow bIsAdapterLMK min_score_adj
    nMax (killInit g1) window
  { state := applyKill g1 inp.jiffiesNow min_score_adj ks,
    rem := ks.rem,
    killed := ks.killed,
    tookLock := true,
    walked := true }

/-- `lowmem_scan` (lines 448-858).  Interrupted lock acquisition returns zero
immediately; otherwise the lock is taken, the threshold is resolved (with the
adaptive clamp consuming `shift_adj`), the two cooldown gates and the
no-match sentinel can exit early (each incrementing its escape counter), and
the surviving invocations scan, rank, and terminate. -/
def lowmem_scan (g : GState) (inp : ScanInput) : ScanResult :=
  if inp.lockInterrupted then
    { state := g, rem := 0, killed := [], tookLock := false, walked := false }
  else if (bumpScan g inp).justkilled_adj ≤ resolvedMin g inp ∧
      inp.jiffiesNow ≤ (bumpScan g inp).lowmem_justkilled_timeout then
    { state := { bumpScan g inp with
        lowmem_escape1_count := (bumpScan g inp).lowmem_escape1_count + 1 },
      rem := 0, killed := [], tookLock := true, walked := false }
  else if (bumpScan g inp).killNothing_adj ≤ resolvedMin g inp ∧
      inp.jiffiesNow ≤ (bumpScan g inp).lowmem_killNothing_timeout then
    { state := { bumpScan g inp with
        lowmem_escape2_count := (bumpScan g inp).lowmem_escape2_count + 1 },
      rem := 0, killed := [], tookLock := true, walked := false }
  else if resolvedMin g inp = OOM_SCORE_ADJ_MAX + 1 then
    { state := { bumpScan g inp with
        lowmem_escape3_count := (bumpScan g inp).lowmem_escape3_count + 1 },
      rem := 0, killed := [], tookLock := true, walked := false }
  else
    proceedPhase (bumpScan g inp) inp (isAdaptiveInv g inp) (resolvedMin g inp)

end Lmk

namespace Lmk

/-! ## Concrete states used by witnesses and counterexamples -/

/-- A 500 MB background process (128000 pages) with a mid-range score. -/
def tBig : Task :=
  { pid := 101, comm := [], isKthread := false, mmReleased := false,
    memdie := false, hasMm := true, oom_score_adj := 400, rss := 128000,
    adjNow := 400, memdieNow := false, rssNow := 128000 }

/-- A 50 MB process (12800 pages) whose score is higher (more killable) than
`tBig`'s — under non-adaptive ranking it would be the better victim. -/
def tSmall : Task :=
  { pid := 102, comm := [], isKthread := false, mmReleased := false,
    memdie := false, hasMm := true, oom_score_adj := 900, rss := 12800,
    adjNow := 900, memdieNow := false, rssNow := 12800 }

/-- A live victim whose current score (500) sits strictly above the resolved
minimum used in the C4 scenario (300). -/
def tVictim : Task :=
  { pid := 103, comm := [], isKthread := false, mmReleased := false,
    memdie := false, hasMm := true, oom_score_adj := 500, rss := 5000,
    adjNow := 500, memdieNow := false, rssNow := 5000 }

/-- A fresh termination-loop state. -/
def st0 : KillState :=
  { rem := 0, killNothing := true, killNothing_adj := 2000,
    justkilled_timeout := 0, justkilled_adj := 2000, kill_count := 0,
    killed := [] }

/-- Global state with the default threshold tables, adaptive LMK disabled, and
a live post-kill cooldown recorded at score 0 with deadline 1000. -/
def gCooldown : GState :=
  { lowmem_adj := [0, 1, 6, 12], lowmem_minfree := [1536, 2048, 4096, 16384],
    enable_adaptive_lmk := false, shift_adj := false,
    lowmem_justkilled_timeout := 1000, justkilled_adj := 0,
    lowmem_killNothing_timeout := 0, killNothing_adj := 2000,
    killNothing := false, lowmem_scan_count := 0, lowmem_escape1_count := 0,
    lowmem_escape2_count := 0, lowmem_escape3_count := 0,
    lowmem_kill_count := 0 }

/-- `gCooldown` with the adaptive feature enabled and the shift flag armed. -/
def gArmed : GState :=
  { gCooldown with enable_adaptive_lmk := true, shift_adj := true }

/-- Invocation during the cooldown window: the table resolves to score 0
(both estimator outputs under the first minfree entry) and jiffies 500 is
before the recorded deadline 1000. -/
def inpCooldown : ScanInput :=
  { lockInterrupted := false, otherFree := 1000, otherFile := 1000,
    tasks := [], currentPid := 1, jiffiesNow := 500 }

/-- The same invocation with `mutex_lock_interruptible` interrupted. -/
def inpInterrupted : ScanInput :=
  { inpCooldown with lockInterrupted := true }

/-- Global state for the adaptive scenario: adaptive enabled and armed, no
cooldown active (both recorded scores at 2000 with expired deadlines). -/
def gAdaptive : GState :=
  { lowmem_adj := [0, 1, 6, 12], lowmem_minfree := [1536, 2048, 4096, 16384],
    enable_adaptive_lmk := true, shift_adj := true,
    lowmem_justkilled_timeout := 0, justkilled_adj := 2000,
    lowmem_killNothing_timeout := 0, killNothing_adj := 2000,
    killNothing := false, lowmem_scan_count := 0, lowmem_escape1_count := 0,
    lowmem_escape2_count := 0, lowmem_escape3_count := 0,
    lowmem_kill_count := 0 }

/-- Adaptive-scenario invocation: ample memory (no table entry matches, so the
armed clamp drags the sentinel down to 353) and both example processes live. -/
def inpAdaptive : ScanInput :=
  { lockInterrupted := false, otherFree := 20000, otherFile := 20000,
    tasks := [tBig, tSmall], currentPid := 1, jiffiesNow := 5000 }

/-- Equality of the five throttle-state fields (the post-kill pair, the
kill-nothing pair, and the `killNothing` flag). -/
def throttleEq (a b : GState) : Prop :=
  a.lowmem_justkilled_timeout = b.lowmem_justkilled_timeout ∧
  a.justkilled_adj = b.justkilled_adj ∧
  a.lowmem_killNothing_timeout = b.lowmem_killNothing_timeout ∧
  a.killNothing_adj = b.killNothing_adj ∧
  a.killNothing = b.killNothing

/-! ## Helper lemmas -/

theorem foldl_preserve {α β : Type} (step : α → β → α) (P : α → Prop)
    (h : ∀ a b, P a → P (step a b)) :
    ∀ (l : List β) (a : α), P a → P (l.foldl step a) := by
  intro l
  induction l with
  | nil => intro a ha; exact ha
  | cons b t ih => intro a ha; exact ih (step a b) (h a b ha)

theorem mem_of_ite_tail {α : Type} {P : Prop} [Decidable P] {l : List α}
    {t : α} (h : t ∈ if P then l.tail else l) : t ∈ l := by
  split at h
  · exact List.mem_of_mem_tail h
  · exact h

theorem mem_insertInner (adap : Bool) (c t : Task) :
    ∀ l : List Task, t ∈ insertInner adap c l → t = c ∨ t ∈ l := by
  intro l
  induction l with
  | nil => intro h; simpa [insertInner] using h
  | cons e rest ih =>
    intro h
    by_cases hb : breaksAt adap c.oom_score_adj c.rss e
    · simp only [insertInner, if_pos hb, List.mem_cons] at h
      rcases h with h | h | h
      · exact Or.inl h
      · exact Or.inr (by simp [h])
      · exact Or.inr (by simp [h])
    · simp only [insertInner, if_neg hb, List.mem_cons] at h
      rcases h with h | h
      · exact Or.inr (by simp [h])
      · rcases ih h with h | h
        · exact Or.inl h
        · exact Or.inr (by simp [h])

theorem mem_windowInsert (adap : Bool) (n : Nat) (c t : Task)
    (w : List Task) (h : t ∈ windowInsert adap n c w) : t = c ∨ t ∈ w := by
  match w with
  | [] => simpa [windowInsert] using h
  | e :: rest =>
    by_cases hb : breaksAt adap c.oom_score_adj c.rss e
    · by_cases hl : (e :: rest).length < n
      · simp only [windowInsert, if_pos hb, if_pos hl] at h
        have h2 := mem_of_ite_tail h
        rcases List.mem_cons.mp h2 with h3 | h3
        · exact Or.inl h3
        · exact Or.inr h3
      · simp only [windowInsert, if_pos hb, if_neg hl] at h
        exact Or.inr (mem_of_ite_tail h)
    · simp only [windowInsert, if_neg hb] at h
      have h2 := mem_of_ite_tail h
      rcases List.mem_cons.mp h2 with h3 | h3
      · exact Or.inr (by simp [h3])
      · rcases mem_insertInner adap c t rest h3 with h4 | h4
        · exact Or.inl h4
        · exact Or.inr (by simp [h4])

theorem length_insertInner (adap : Bool) (c : Task) :
    ∀ l : List Task, (insertInner adap c l).length = l.length + 1 := by
  intro l
  induction l with
  | nil => rfl
  | cons e rest ih =>
    by_cases hb : breaksAt adap c.oom_score_adj c.rss e <;>
      simp [insertInner, hb, ih]

theorem length_windowInsert (adap : Bool) (n : Nat) (c : Task)
    (w : List Task) (hn : 1 ≤ n) (hw : w.length ≤ n) :
    (windowInsert adap n c w).length ≤ n := by
  match w with
  | [] => simpa [windowInsert] using hn
  | e :: rest =>
    simp only [windowInsert]
    by_cases hb : breaksAt adap c.oom_score_adj c.rss e
    · by_cases hl : (e :: rest).length < n
      · rw [if_pos hb, if_pos hl]
        by_cases hev : n < (c :: e :: rest).length
        · rw [if_pos hev, List.length_tail]
          simp only [List.length_cons] at hl ⊢
          omega
        · rw [if_neg hev]
          simp only [List.length_cons] at hev ⊢
          omega
      · rw [if_pos hb, if_neg hl]
        by_cases hev : n < (e :: rest).length
        · rw [if_pos hev, List.length_tail]
          omega
        · rw [if_neg hev]
          exact hw
    · rw [if_neg hb]
      by_cases hev : n < (e :: insertInner adap c rest).length
      · rw [if_pos hev, List.length_tail]
        simp only [List.length_cons, length_insertInner] at hev ⊢
        simp only [List.length_cons] at hw
        omega
      · rw [if_neg hev]
        simp only [List.length_cons, length_insertInner] at hev ⊢
        omega

theorem scanStep_eq_or (adap : Bool) (m : Int) (n : Nat) (w : List Task)
    (tk : Task) :
    scanStep adap m n w tk = w ∨
    (m ≤ tk.oom_score_adj ∧ 0 < tk.rss ∧
      scanStep adap m n w tk = windowInsert adap n tk w) := by
  unfold scanStep
  by_cases h1 : tk.isKthread = true
  · rw [if_pos h1]; exact Or.inl rfl
  · rw [if_neg h1]
    by_cases h2 : tk.mmReleased = true
    · rw [if_pos h2]; exact Or.inl rfl
    · rw [if_neg h2]
      by_cases h3 : tk.memdie = true
      · rw [if_pos h3]; exact Or.inl rfl
      · rw [if_neg h3]
        by_cases h4 : (!tk.hasMm) = true
        · rw [if_pos h4]; exact Or.inl rfl
        · rw [if_neg h4]
          by_cases h5 : strstrB tk.comm pat_launcher = true ∧ 200 < m
          · rw [if_pos h5]; exact Or.inl rfl
          · rw [if_neg h5]
            by_cases h6 : strstrB tk.comm pat_launcher3 = true ∧ 200 < m
            · rw [if_pos h6]; exact Or.inl rfl
            · rw [if_neg h6]
              by_cases h7 : strstrB tk.comm pat_acore = true ∧ 200 < m
              · rw [if_pos h7]; exact Or.inl rfl
              · rw [if_neg h7]
                by_cases h8 : strstrB tk.comm pat_gapps = true ∧ 200 < m
                · rw [if_pos h8]; exact Or.inl rfl
                · rw [if_neg h8]
                  by_cases h9 : strstrB tk.comm pat_media = true ∧ 200 < m
                  · rw [if_pos h9]; exact Or.inl rfl
                  · rw [if_neg h9]
                    by_cases h10 : tk.oom_score_adj < m
                    · rw [if_pos h10]; exact Or.inl rfl
                    · rw [if_neg h10]
                      by_cases h11 : tk.rss ≤ 0
                      · rw [if_pos h11]; exact Or.inl rfl
                      · rw [if_neg h11]
                        exact Or.inr ⟨by omega, by omega, rfl⟩

theorem scanStep_subset (adap : Bool) (m : Int) (n : Nat) (w : List Task)
    (tk t : Task) (h : t ∈ scanStep adap m n w tk) :
    t ∈ w ∨ (t = tk ∧ m ≤ tk.oom_score_adj ∧ 0 < tk.rss) := by
  rcases scanStep_eq_or adap m n w tk with he | ⟨ha, hr, he⟩
  · rw [he] at h; exact Or.inl h
  · rw [he] at h
    rcases mem_windowInsert adap n tk t w h with h1 | h1
    · exact Or.inr ⟨h1, ha, hr⟩
    · exact Or.inl h1

theorem rankCandidates_score (adap : Bool) (m : Int) (n : Nat)
    (tasks : List Task) :
    ∀ t, t ∈ rankCandidates adap m n tasks → m ≤ t.oom_score_adj := by
  unfold rankCandidates
  have := foldl_preserve (scanStep adap m n)
    (fun w => ∀ t, t ∈ w → m ≤ t.oom_score_adj) ?_ tasks [] (by simp)
  · exact this
  · intro w tk hw t ht
    rcases scanStep_subset adap m n w tk t ht with h | ⟨he, h2, _⟩
    · exact hw t h
    · rw [he]; exact h2

theorem one_le_nTaskMaxOf (adap : Bool) (m : Int) :
    1 ≤ nTaskMaxOf adap m := by
  unfold nTaskMaxOf
  repeat' split
  all_goals omega

theorem rankCandidates_length (adap : Bool) (m : Int) (n : Nat)
    (tasks : List Task) (hn : 1 ≤ n) :
    (rankCandidates adap m n tasks).length ≤ n := by
  unfold rankCandidates
  have := foldl_preserve (scanStep adap m n)
    (fun w => w.length ≤ n) ?_ tasks [] (by simp)
  · exact this
  · intro w tk hw
    rcases scanStep_eq_or adap m n w tk with he | ⟨_, _, he⟩
    · rw [he]; exact hw
    · rw [he]; exact length_windowInsert adap n tk w hn hw

theorem killStep_cases (cur : Int) (now : Nat) (adap : Bool) (m : Int)
    (n : Nat) (st : KillState) (t : Task) :
    killStep cur now adap m n st t = st ∨
    (m ≤ t.adjNow ∧ killStep cur now adap m n st t =
      { rem := st.rem + t.rssNow, killNothing := false,
        killNothing_adj := 2000, justkilled_timeout := now + HZ / n,
        justkilled_adj := m, kill_count := st.kill_count + 1,
        killed := st.killed ++ [t] }) := by
  unfold killStep
  by_cases h1 : t.memdieNow = true
  · rw [if_pos h1]; exact Or.inl rfl
  · rw [if_neg h1]
    by_cases h2 : t.adjNow < m
    · rw [if_pos h2]; exact Or.inl rfl
    · rw [if_neg h2]
      by_cases h3 : t.pid = cur
      · rw [if_pos h3]; exact Or.inl rfl
      · rw [if_neg h3]
        by_cases h4 : adap = true ∧ t.rssNow * (PAGE_SIZE / 1024) < 80 * 1024
        · rw [if_pos h4]; exact Or.inl rfl
        · rw [if_neg h4]; exact Or.inr ⟨by omega, rfl⟩

theorem killFoldl_inv (cur : Int) (now : Nat) (adap : Bool) (m : Int)
    (n : Nat) :
    ∀ (l : List Task) (st : KillState),
      (∀ t, t ∈ st.killed → m ≤ t.adjNow) →
      st.rem = (st.killed.map Task.rssNow).sum →
      (∀ t, t ∈ (l.foldl (killStep cur now adap m n) st).killed →
        m ≤ t.adjNow) ∧
      (l.foldl (killStep cur now adap m n) st).rem =
        ((l.foldl (killStep cur now adap m n) st).killed.map Task.rssNow).sum := by
  intro l
  induction l with
  | nil => intro st h1 h2; exact ⟨h1, h2⟩
  | cons b tl ih =>
    intro st h1 h2
    simp only [List.foldl_cons]
    rcases killStep_cases cur now adap m n st b with he | ⟨hge, he⟩
    · rw [he]; exact ih st h1 h2
    · rw [he]
      refine ih _ ?_ ?_
      · intro t ht
        rcases List.mem_append.mp ht with h | h
        · exact h1 t h
        · rw [List.mem_singleton.mp h]; exact hge
      · simp [h2]

/-- Does a threshold entry match the estimator outputs (condition of line 506). -/
abbrev matchesEntry (other_free other_file : Int) (e : Int × Int) : Prop :=
  other_free < e.2 ∧ other_file < e.2

theorem resolve_eq_of_first (table : List (Int × Int)) (f fi : Int) :
    ∀ i : Nat, i < table.length →
      matchesEntry f fi (table.getD i (0, 0)) →
      (∀ j, j < i → ¬ matchesEntry f fi (table.getD j (0, 0))) →
      resolveMinScore table f fi = (table.getD i (0, 0)).1 := by
  induction table with
  | nil => intro i hi; simp at hi
  | cons e rest ih =>
    intro i hi hm hnone
    match i with
    | 0 =>
      simp only [List.getD_cons_zero] at hm ⊢
      simp [resolveMinScore, hm]
    | k + 1 =>
      have h0 : ¬ matchesEntry f fi e := by
        have := hnone 0 (Nat.succ_pos k)
        simpa using this
      simp only [List.getD_cons_succ] at hm ⊢
      simp only [resolveMinScore, if_neg h0]
      exact ih k (by simpa using hi) hm (fun j hj => by
        have := hnone (j + 1) (Nat.succ_lt_succ hj)
        simpa using this)

theorem resolve_eq_sentinel_of_none (table : List (Int × Int)) (f fi : Int) :
    (∀ i, i < table.length → ¬ matchesEntry f fi (table.getD i (0, 0))) →
    resolveMinScore table f fi = OOM_SCORE_ADJ_MAX + 1 := by
  induction table with
  | nil => intro _; rfl
  | cons e rest ih =>
    intro h
    have h0 : ¬ matchesEntry f fi e := by
      have := h 0 (by simp)
      simpa using this
    simp only [resolveMinScore, if_neg h0]
    exact ih (fun i hi => by
      have := h (i + 1) (by simpa using Nat.succ_lt_succ hi)
      simpa using this)

theorem adjust_noclamp (enable shift : Bool) (m : Int)
    (h : enable = false ∨ shift = false) :
    (adjust_minadj enable shift m).minAdj = m := by
  cases enable <;> cases shift <;> simp_all [adjust_minadj]

/-! ## Claims -/

/-- Claim C1: threshold resolution is first-match over the ascending table
(both module arrays clamped to the shorter length via `zip`): the pre-adaptive
resolved score is `lowmem_adj[i]` for the least index `i` at which both
estimator outputs are under `lowmem_minfree[i]`, the sentinel
`OOM_SCORE_ADJ_MAX + 1` when no index matches, and an invocation that reaches
the sentinel with the adaptive clamp absent kills nothing and reclaims zero. -/
theorem c1_threshold_first_match :
    (∀ (adjL minfreeL : List Int) (other_free other_file : Int) (i : Nat),
      i < (adjL.zip minfreeL).length →
      matchesEntry other_free other_file ((adjL.zip minfreeL).getD i (0, 0)) →
      (∀ j, j < i →
        ¬ matchesEntry other_free other_file ((adjL.zip minfreeL).getD j (0, 0))) →
      resolveMinScore (adjL.zip minfreeL) other_free other_file =
        ((adjL.zip minfreeL).getD i (0, 0)).1) ∧
    (∀ (adjL minfreeL : List Int) (other_free other_file : Int),
      (∀ i, i < (adjL.zip minfreeL).length →
        ¬ matchesEntry other_free other_file ((adjL.zip minfreeL).getD i (0, 0))) →
      resolveMinScore (adjL.zip minfreeL) other_free other_file =
        OOM_SCORE_ADJ_MAX + 1) ∧
    (∀ (g : GState) (inp : ScanInput),
      (g.enable_adaptive_lmk = false ∨ g.shift_adj = false) →
      preAdaptiveMin g inp = OOM_SCORE_ADJ_MAX + 1 →
      (lowmem_scan g inp).killed = [] ∧ (lowmem_scan g inp).rem = 0) := by
  refine ⟨?_, ?_, ?_⟩
  · intro adjL minfreeL f fi i hi hm hnone
    exact resolve_eq_of_first (adjL.zip minfreeL) f fi i hi hm hnone
  · intro adjL minfreeL f fi h
    exact resolve_eq_sentinel_of_none (adjL.zip minfreeL) f fi h
  · intro g inp hnc hpre
    have hres : resolvedMin g inp = OOM_SCORE_ADJ_MAX + 1 := by
      unfold resolvedMin
      rw [adjust_noclamp _ _ _ hnc, hpre]
    unfold lowmem_scan
    rw [hres]
    split
    · exact ⟨rfl, rfl⟩
    · split
      · exact ⟨rfl, rfl⟩
      · split
        · exact ⟨rfl, rfl⟩
        · rw [if_pos rfl]
          exact ⟨rfl, rfl⟩

/-- Witness for C1 at the spec's own worked example: the first entry whose
minfree (16384) exceeds both 3000 and 5000 sits at index 3 and carries score 12. -/
theorem c1_threshold_first_match_witness :
    resolveMinScore ([0, 1, 6, 12].zip [1536, 2048, 4096, 16384]) 3000 5000 = 12 := by
  have h := c1_threshold_first_match.1 [0, 1, 6, 12] [1536, 2048, 4096, 16384]
    3000 5000 3 (by decide) (by decide) (by decide)
  exact h.trans (by decide)

/-- Claim C5: the adaptive clamp (`adjust_minadj`) with cap
`adj_max_shift = 353` never raises the score, changes it exactly when the
feature is enabled, the shift flag is armed and the score exceeds the cap, and
then sets it to exactly 353. -/
theorem c5_adjust_minadj_clamp :
    adj_max_shift = 353 ∧
    ∀ (enable shift : Bool) (m : Int),
      (adjust_minadj enable shift m).minAdj ≤ m ∧
      ((adjust_minadj enable shift m).minAdj ≠ m ↔
        (enable = true ∧ shift = true ∧ adj_max_shift < m)) ∧
      (enable = true → shift = true → adj_max_shift < m →
        (adjust_minadj enable shift m).minAdj = adj_max_shift) := by
  refine ⟨rfl, ?_⟩
  intro enable shift m
  cases enable <;> cases shift <;> by_cases h : (353 : Int) < m
  all_goals simp [adjust_minadj, adj_max_shift, h]
  all_goals omega

/-- Witness for C5: at an armed, enabled invocation with the sentinel score
1001 the clamp lowers the score to exactly 353. -/
theorem c5_adjust_minadj_clamp_witness :
    (adjust_minadj true true (OOM_SCORE_ADJ_MAX + 1)).minAdj = adj_max_shift ∧
    (adjust_minadj true true (OOM_SCORE_ADJ_MAX + 1)).minAdj ≤ OOM_SCORE_ADJ_MAX + 1 := by
  refine ⟨(c5_adjust_minadj_clamp.2 true true (OOM_SCORE_ADJ_MAX + 1)).2.2 rfl rfl
    (by decide), ?_⟩
  exact (c5_adjust_minadj_clamp.2 true true (OOM_SCORE_ADJ_MAX + 1)).1

/-- Claim C8: with the adaptive feature enabled, a pressure event at level 98
or above leaves the shift flag armed exactly when it was already armed or both
current free pages are under the last clamped minfree entry and current
file-backed pages (file + zcache - shmem - swapcache) are under
`vmpressure_file_min`; a level below 98 always leaves the flag disarmed
(clearing it when it was armed, touching nothing otherwise); and every event
returns 0. -/
theorem c8_vmpressure_notifier :
    ∀ (enable : Bool) (pressure : Nat) (adjL minfreeL : List Int)
      (vfm file zc shm swc free : Int) (shift : Bool),
      (lmk_vmpressure_notifier enable pressure adjL minfreeL vfm file zc shm swc
        free shift).1 = 0 ∧
      (98 ≤ pressure →
        (lmk_vmpressure_notifier true pressure adjL minfreeL vfm file zc shm swc
          free shift).2 =
        ((decide (free < minfreeL.getD (min adjL.length minfreeL.length - 1) 0) &&
          decide (file + zc - shm - swc < vfm)) || shift)) ∧
      (pressure < 98 →
        (lmk_vmpressure_notifier true pressure adjL minfreeL vfm file zc shm swc
          free shift).2 = false) ∧
      (lmk_vmpressure_notifier false pressure adjL minfreeL vfm file zc shm swc
        free shift).2 = shift := by
  intro enable pressure adjL minfreeL vfm file zc shm swc free shift
  refine ⟨?_, ?_, ?_, ?_⟩
  · simp only [lmk_vmpressure_notifier]
    repeat' split
    all_goals rfl
  · intro hp
    simp only [lmk_vmpressure_notifier]
    generalize minfreeL.getD (min adjL.length minfreeL.length - 1) 0 = v
    by_cases h1 : free < v <;> by_cases h2 : file + zc - shm - swc < vfm <;>
      simp [hp, h1, h2]
  · intro hp
    have h98 : ¬ 98 ≤ pressure := by omega
    cases shift <;> simp [lmk_vmpressure_notifier, h98]
  · simp [lmk_vmpressure_notifier]

/-- Witness for C8: a level-98 event with free pages under the worst table
entry and file pages under the pseudo-minfree arms the flag from disarmed. -/
theorem c8_vmpressure_notifier_witness :
    (lmk_vmpressure_notifier true 98 [0, 1, 6, 12] [1536, 2048, 4096, 16384]
      10000 500 0 0 0 1000 false).2 = true ∧
    (lmk_vmpressure_notifier true 98 [0, 1, 6, 12] [1536, 2048, 4096, 16384]
      10000 500 0 0 0 1000 false).1 = 0 := by
  have h := c8_vmpressure_notifier true 98 [0, 1, 6, 12] [1536, 2048, 4096, 16384]
    10000 500 0 0 0 1000 false
  exact ⟨(h.2.1 (by decide)).trans (by decide), h.1⟩


theorem lowmem_scan_killed_inv (g : GState) (inp : ScanInput) :
    (∀ t, t ∈ (lowmem_scan g inp).killed → resolvedMin g inp ≤ t.adjNow) ∧
    (lowmem_scan g inp).rem =
      (((lowmem_scan g inp).killed).map Task.rssNow).sum := by
  unfold lowmem_scan
  split
  · simp
  · split
    · simp
    · split
      · simp
      · split
        · simp
        · simp only [proceedPhase, runKill]
          exact killFoldl_inv inp.currentPid inp.jiffiesNow
            (isAdaptiveInv g inp) (resolvedMin g inp)
            (nTaskMaxOf (isAdaptiveInv g inp) (resolvedMin g inp))
            (rankCandidates (isAdaptiveInv g inp) (resolvedMin g inp)
              (nTaskMaxOf (isAdaptiveInv g inp) (resolvedMin g inp))
              inp.tasks).reverse
            (killInit (bumpScan g inp)) (by simp [killInit]) (by simp [killInit])

/-- Claim C2: no process whose score is below the resolved minimum is ever
terminated — the candidate scan only admits tasks whose scan-time score is at
least the resolved minimum, every task actually marked dying and signalled has
a termination-time score at least the resolved minimum, and the reclaimed
total is exactly the sum of the resident sizes of the signalled tasks (so a
skipped stale candidate contributes nothing). -/
theorem c2_min_score_respected :
    (∀ (g : GState) (inp : ScanInput) (t : Task),
      t ∈ windowOf g inp → resolvedMin g inp ≤ t.oom_score_adj) ∧
    (∀ (g : GState) (inp : ScanInput) (t : Task),
      t ∈ (lowmem_scan g inp).killed → resolvedMin g inp ≤ t.adjNow) ∧
    (∀ (g : GState) (inp : ScanInput),
      (lowmem_scan g inp).rem =
        (((lowmem_scan g inp).killed).map Task.rssNow).sum) := by
  refine ⟨?_, ?_, ?_⟩
  · intro g inp t ht
    exact rankCandidates_score _ _ _ _ t ht
  · intro g inp t ht
    exact (lowmem_scan_killed_inv g inp).1 t ht
  · intro g inp
    exact (lowmem_scan_killed_inv g inp).2

/-- Witness for C2 at the adaptive scenario: the one signalled task has
termination-time score 400, at or above the resolved minimum 353. -/
theorem c2_min_score_respected_witness :
    resolvedMin gAdaptive inpAdaptive ≤ tBig.adjNow ∧
    resolvedMin gAdaptive inpAdaptive ≤ tBig.oom_score_adj :=
  ⟨c2_min_score_respected.2.1 gAdaptive inpAdaptive tBig (by decide),
   c2_min_score_respected.1 gAdaptive inpAdaptive tBig (by decide)⟩

/-- Claim C6: every insertion step of the candidate scan preserves the window
bound `length ≤ nTaskMax` (including the full-window case, where inserting a
better candidate evicts the current worst entry), hence the window produced by
a whole invocation never exceeds its `nTaskMax`. -/
theorem c6_window_bound :
    (∀ (adap : Bool) (m : Int) (n : Nat) (w : List Task) (tk : Task),
      1 ≤ n → w.length ≤ n → (scanStep adap m n w tk).length ≤ n) ∧
    (∀ (g : GState) (inp : ScanInput),
      (windowOf g inp).length ≤
        nTaskMaxOf (isAdaptiveInv g inp) (resolvedMin g inp)) := by
  constructor
  · intro adap m n w tk hn hw
    rcases scanStep_eq_or adap m n w tk with he | ⟨_, _, he⟩
    · rw [he]; exact hw
    · rw [he]; exact length_windowInsert adap n tk w hn hw
  · intro g inp
    exact rankCandidates_length _ _ _ _ (one_le_nTaskMaxOf _ _)

/-- Witness for C6: one insertion into a full two-entry adaptive window keeps
the length at two. -/
theorem c6_window_bound_witness :
    (scanStep true 353 2 [tSmall, tBig] tVictim).length ≤ 2 :=
  c6_window_bound.1 true 353 2 [tSmall, tBig] tVictim (by decide) (by decide)

/-- Claim C7: in adaptive mode ranking ignores the score — with a 500 MB
process of score 400 and a 50 MB process of the higher score 900 both
qualifying, the 500 MB process ranks best (window tail) and is the victim,
while at termination time the 50 MB candidate is skipped by the fixed 80 MB
floor (first conjunct: any adaptive candidate under the floor leaves the
termination state untouched) even though the window had room for it. -/
theorem c7_adaptive_order_and_floor :
    (∀ (cur : Int) (now : Nat) (m : Int) (n : Nat) (st : KillState) (t : Task),
      t.rssNow * (PAGE_SIZE / 1024) < 80 * 1024 →
      killStep cur now true m n st t = st) ∧
    windowOf gAdaptive inpAdaptive = [tSmall, tBig] ∧
    (lowmem_scan gAdaptive inpAdaptive).killed = [tBig] ∧
    (lowmem_scan gAdaptive inpAdaptive).rem = 128000 ∧
    tBig.oom_score_adj < tSmall.oom_score_adj := by
  refine ⟨?_, by decide, by decide, by decide, by decide⟩
  intro cur now m n st t h
  unfold killStep
  by_cases h1 : t.memdieNow = true
  · rw [if_pos h1]
  · rw [if_neg h1]
    by_cases h2 : t.adjNow < m
    · rw [if_pos h2]
    · rw [if_neg h2]
      by_cases h3 : t.pid = cur
      · rw [if_pos h3]
      · rw [if_neg h3]
        rw [if_pos ⟨rfl, h⟩]

/-- Witness for C7: the 50 MB process is skipped by the adaptive floor. -/
theorem c7_adaptive_order_and_floor_witness :
    killStep 1 0 true 353 2 st0 tSmall = st0 :=
  c7_adaptive_order_and_floor.1 1 0 353 2 st0 tSmall (by decide)

/-- Counterexample to C4 as stated: a victim with current score 500 accepted
under resolved minimum 300 is signalled, yet the recorded cooldown ceiling is
300 (the invocation's resolved minimum), not the victim's score 500. -/
theorem c4_counterexample :
    (killStep 1 1000 false 300 2 st0 tVictim).killed = [tVictim] ∧
    tVictim.adjNow = 500 ∧
    (killStep 1 1000 false 300 2 st0 tVictim).justkilled_adj = 300 ∧
    (300 : Int) ≠ 500 := by decide

/-- Claim C4 (amended): for every victim accepted by the terminator, the
engine marks it dying and signals it (appends it to `killed`), adds its
resident size to the reclaimed total, and sets the post-kill cooldown deadline
to now + HZ / nTaskMax — with the recorded ceiling equal to the invocation's
resolved minimum score (not the victim's own score). -/
theorem c4_amended_terminator_updates :
    ∀ (cur : Int) (now : Nat) (adap : Bool) (m : Int) (n : Nat)
      (st : KillState) (t : Task),
      t.memdieNow = false → ¬ t.adjNow < m → t.pid ≠ cur →
      ¬(adap = true ∧ t.rssNow * (PAGE_SIZE / 1024) < 80 * 1024) →
      killStep cur now adap m n st t =
        { rem := st.rem + t.rssNow, killNothing := false,
          killNothing_adj := 2000, justkilled_timeout := now + HZ / n,
          justkilled_adj := m, kill_count := st.kill_count + 1,
          killed := st.killed ++ [t] } := by
  intro cur now adap m n st t h1 h2 h3 h4
  unfold killStep
  rw [if_neg (by simp [h1]), if_neg h2, if_neg h3, if_neg h4]

/-- Witness for C4 (amended) at the concrete victim. -/
theorem c4_amended_terminator_updates_witness :
    killStep 1 1000 false 300 2 st0 tVictim =
      { rem := 5000, killNothing := false, killNothing_adj := 2000,
        justkilled_timeout := 1000 + HZ / 2, justkilled_adj := 300,
        kill_count := 1, killed := [tVictim] } :=
  (c4_amended_terminator_updates 1 1000 false 300 2 st0 tVictim
    (by decide) (by decide) (by decide) (by decide)).trans (by decide)


/-- Counterexample to C9 as stated: an interrupted lock acquisition returns
zero reclaimed pages but leaves the global state — including all three escape
counters and the scan counter — exactly unchanged, so no escape counter is
incremented. -/
theorem c9_counterexample :
    inpInterrupted.lockInterrupted = true ∧
    (lowmem_scan gCooldown inpInterrupted).rem = 0 ∧
    (lowmem_scan gCooldown inpInterrupted).state = gCooldown := by decide

/-- Claim C9 (amended): when acquisition of the scan mutex is interrupted the
invocation aborts before doing any scan work and reports exactly zero
reclaimed pages, leaving every global — counters included — untouched (the
escape counters cover only the two cooldown gates and the sentinel exit). -/
theorem c9_amended_lock_interrupted :
    ∀ (g : GState) (inp : ScanInput), inp.lockInterrupted = true →
      (lowmem_scan g inp).state = g ∧ (lowmem_scan g inp).rem = 0 ∧
      (lowmem_scan g inp).walked = false ∧
      (lowmem_scan g inp).killed = [] ∧
      (lowmem_scan g inp).tookLock = false := by
  intro g inp h
  unfold lowmem_scan
  rw [if_pos h]
  exact ⟨rfl, rfl, rfl, rfl, rfl⟩

/-- Witness for C9 (amended) at a concrete interrupted invocation. -/
theorem c9_amended_lock_interrupted_witness :
    (lowmem_scan gCooldown inpInterrupted).state = gCooldown ∧
    (lowmem_scan gCooldown inpInterrupted).rem = 0 := by
  have h := c9_amended_lock_interrupted gCooldown inpInterrupted rfl
  exact ⟨h.1, h.2.1⟩

/-- Counterexample to C10 as stated: an invocation suppressed by the post-kill
cooldown gate (it walks nothing and reclaims nothing) still consumes the armed
adaptive shift flag — a non-counter global changes on an early-exit path, so
it is not true that only diagnostic counters are modified there. -/
theorem c10_counterexample :
    gArmed.shift_adj = true ∧
    (lowmem_scan gArmed inpCooldown).walked = false ∧
    (lowmem_scan gArmed inpCooldown).rem = 0 ∧
    (lowmem_scan gArmed inpCooldown).state.shift_adj = false := by decide

/-- Claim C10 (amended): every early-exit path of an invocation — interrupted
lock (which changes nothing at all), either cooldown gate, or the no-match
sentinel — leaves the five throttle-state fields (`lowmem_justkilled_timeout`,
`justkilled_adj`, `lowmem_killNothing_timeout`, `killNothing_adj`,
`killNothing`) at their prior values; besides the diagnostic counters, only
the one-shot adaptive shift flag is consumed on the gate and sentinel paths. -/
theorem c10_amended_throttle_frame :
    ∀ (g : GState) (inp : ScanInput),
      (inp.lockInterrupted = true → (lowmem_scan g inp).state = g) ∧
      (inp.lockInterrupted = false →
        ((g.justkilled_adj ≤ resolvedMin g inp ∧
          inp.jiffiesNow ≤ g.lowmem_justkilled_timeout) ∨
         (g.killNothing_adj ≤ resolvedMin g inp ∧
          inp.jiffiesNow ≤ g.lowmem_killNothing_timeout) ∨
         resolvedMin g inp = OOM_SCORE_ADJ_MAX + 1) →
        throttleEq (lowmem_scan g inp).state g) := by
  intro g inp
  constructor
  · intro h
    unfold lowmem_scan
    rw [if_pos h]
  · intro hli hdisj
    unfold lowmem_scan
    rw [if_neg (by simp [hli])]
    by_cases h1 : (bumpScan g inp).justkilled_adj ≤ resolvedMin g inp ∧
        inp.jiffiesNow ≤ (bumpScan g inp).lowmem_justkilled_timeout
    · rw [if_pos h1]
      exact ⟨rfl, rfl, rfl, rfl, rfl⟩
    · rw [if_neg h1]
      by_cases h2 : (bumpScan g inp).killNothing_adj ≤ resolvedMin g inp ∧
          inp.jiffiesNow ≤ (bumpScan g inp).lowmem_killNothing_timeout
      · rw [if_pos h2]
        exact ⟨rfl, rfl, rfl, rfl, rfl⟩
      · rw [if_neg h2]
        by_cases h3 : resolvedMin g inp = OOM_SCORE_ADJ_MAX + 1
        · rw [if_pos h3]
          exact ⟨rfl, rfl, rfl, rfl, rfl⟩
        · exfalso
          rcases hdisj with h | h | h
          · exact h1 h
          · exact h2 h
          · exact h3 h

/-- Witness for C10 (amended): the cooldown-gated invocation leaves all five
throttle fields unchanged. -/
theorem c10_amended_throttle_frame_witness :
    throttleEq (lowmem_scan gArmed inpCooldown).state gArmed :=
  (c10_amended_throttle_frame gArmed inpCooldown).2 rfl (Or.inl (by decide))

/-- Counterexample to C3 as stated: the post-kill cooldown gate does fire here
(resolved score at or above the recorded score, time at or before the
deadline) and the invocation walks no processes and reclaims nothing — but the
scan lock was taken (and released) to evaluate the gate, refuting "without
taking the scan lock": `mutex_lock_interruptible` is called at line 480,
before the gate at line 520. -/
theorem c3_counterexample :
    gCooldown.justkilled_adj ≤ resolvedMin gCooldown inpCooldown ∧
    inpCooldown.jiffiesNow ≤ gCooldown.lowmem_justkilled_timeout ∧
    (lowmem_scan gCooldown inpCooldown).walked = false ∧
    (lowmem_scan gCooldown inpCooldown).tookLock = true := by decide

/-- Claim C3 (amended): an invocation whose resolved minimum score is at or
above the score recorded at the most recent kill and whose time is at or
before the post-kill deadline is skipped entirely: it walks no processes,
kills nothing, increments the first escape counter, and returns zero reclaimed
pages — after taking (and releasing) the scan lock, not without taking it.
Once the deadline has passed, an invocation whose resolved score is not the
sentinel and is not stopped by the kill-nothing gate proceeds to the process
walk. -/
theorem c3_amended_postkill_gate :
    ∀ (g : GState) (inp : ScanInput),
      (inp.lockInterrupted = false →
        g.justkilled_adj ≤ resolvedMin g inp →
        inp.jiffiesNow ≤ g.lowmem_justkilled_timeout →
        (lowmem_scan g inp).walked = false ∧
        (lowmem_scan g inp).killed = [] ∧
        (lowmem_scan g inp).rem = 0 ∧
        (lowmem_scan g inp).state.lowmem_escape1_count =
          g.lowmem_escape1_count + 1 ∧
        (lowmem_scan g inp).tookLock = true) ∧
      (inp.lockInterrupted = false →
        g.lowmem_justkilled_timeout < inp.jiffiesNow →
        ¬(g.killNothing_adj ≤ resolvedMin g inp ∧
          inp.jiffiesNow ≤ g.lowmem_killNothing_timeout) →
        resolvedMin g inp ≠ OOM_SCORE_ADJ_MAX + 1 →
        (lowmem_scan g inp).walked = true) := by
  intro g inp
  constructor
  · intro hli hadj htime
    unfold lowmem_scan
    rw [if_neg (by simp [hli]), if_pos ⟨hadj, htime⟩]
    exact ⟨rfl, rfl, rfl, rfl, rfl⟩
  · intro hli htime h2 h3
    unfold lowmem_scan
    rw [if_neg (by simp [hli]),
        if_neg (fun hc => absurd hc.2 (by
          have : (bumpScan g inp).lowmem_justkilled_timeout =
            g.lowmem_justkilled_timeout := rfl
          omega)),
        if_neg (fun hc => h2 ⟨hc.1, hc.2⟩), if_neg h3]
    rfl

/-- Witness for C3 (amended) at the concrete cooldown scenario. -/
theorem c3_amended_postkill_gate_witness :
    (lowmem_scan gCooldown inpCooldown).walked = false ∧
    (lowmem_scan gCooldown inpCooldown).state.lowmem_escape1_count =
      gCooldown.lowmem_escape1_count + 1 := by
  have h := (c3_amended_postkill_gate gCooldown inpCooldown).1 rfl
    (by decide) (by decide)
  exact ⟨h.1, h.2.2.2.1⟩

end Lmk
